import Mathlib

/-!
Shallow embedding of the RPC client in src/zed/src/rpc_client.rs.

The client multiplexes request/response, fire-and-forget messages and
server-initiated requests over per-connection duplex streams.  We model:
  - the per-connection record (outstanding response channels, message-id
    counter) and the client state (connections map);
  - the outbound operations request, send, respond as straight-line state
    transformers, with the fallible write and the one-shot receive modelled
    by explicit parameters;
  - the read loop as a step function over a list of observed select results
    (incoming envelope, read error, close signal);
  - handler dispatch as a walk over the ordered handler-slot list.
Machine integers: message ids are u32 counters, modelled as Nat with an
explicit wrap at 2 ^ 32 on fetch-and-add.
-/

/-- Payload variants are modelled by a numeric tag. -/
abbrev Payload := Nat

/-- Wire envelope: id, optional correlation id, payload
(proto::Envelope as used by rpc_client.rs). -/
structure Envelope where
  id : Nat
  responding_to : Option Nat
  payload : Payload
deriving Repr, DecidableEq

/-- Association-list lookup, first matching key (models HashMap::get). -/
def lookupKey {α : Type} : List (Nat × α) → Nat → Option α
  | [], _ => none
  | (k, v) :: rest, key => if k = key then some v else lookupKey rest key

/-- Remove every entry with the given key (models HashMap key removal). -/
def removeKey {α : Type} (m : List (Nat × α)) (key : Nat) : List (Nat × α) :=
  m.filter (fun e => e.1 ≠ key)

/-- Association-list insert with overwrite (models HashMap::insert). -/
def insertKey {α : Type} (m : List (Nat × α)) (key : Nat) (v : α) : List (Nat × α) :=
  (key, v) :: removeKey m key

/-- HashMap::remove: the removed value, if present, and the remaining map
(first entry with the key is taken out). -/
def lookupRemove {α : Type} : List (Nat × α) → Nat → Option α × List (Nat × α)
  | [], _ => (none, [])
  | (k, v) :: rest, key =>
    if k = key then (some v, rest)
    else
      let r := lookupRemove rest key
      (r.1, (k, v) :: r.2)

/-- One u32 step: 2 ^ 32, the wrap modulus of AtomicU32 fetch_add. -/
def u32Size : Nat := 2 ^ 32

/-- Per-connection record (struct RpcConnection): the outstanding-request
map from outbound message id to the one-shot sender (senders are modelled
by numeric slot identifiers), and the next_message_id counter.  The writer
and the close barrier are modelled by parameters and events elsewhere. -/
structure RpcConnection where
  response_channels : List (Nat × Nat)
  next_message_id : Nat
deriving Repr, DecidableEq

/-- AtomicU32 fetch_add(1): returns the previous counter value and the
record with the counter advanced, wrapping at 2 ^ 32. -/
def fetchAdd (c : RpcConnection) : Nat × RpcConnection :=
  (c.next_message_id,
   { c with next_message_id := (c.next_message_id + 1) % u32Size })

/-- A fresh connection record, as built by add_connection
(empty response map, counter 0). -/
def freshConnection : RpcConnection :=
  { response_channels := [], next_message_id := 0 }

/-- Client state visible to the modelled operations: the connections map
keyed by ConnectionId (a u32 handle, modelled as Nat). -/
structure RpcClientState where
  connections : List (Nat × RpcConnection)
deriving Repr, DecidableEq

/-- RpcClient::disconnect: remove the connection record, nothing else. -/
def disconnect (st : RpcClientState) (connection_id : Nat) : RpcClientState :=
  { st with connections := removeKey st.connections connection_id }

/-- Result of awaiting the one-shot response receiver inside request:
either an envelope was delivered, or the sender side was dropped without
sending (the receiver observes abandonment). -/
inductive SlotResult where
  | delivered (env : Envelope)
  | abandoned
deriving Repr, DecidableEq

/-- Outcome of the request future.  The first four mirror the error kinds
named by the error-handling design; panicked models the expect call on the
one-shot receive (process abort, not a returned error).  channelClosed is
included from the error taxonomy so the model can state that the code
never produces it. -/
inductive RequestOutcome where
  | unknownConnection
  | transportFailure
  | protocolMismatch
  | channelClosed
  | panicked (msg : String)
  | success (resp : Payload)
deriving Repr, DecidableEq

/-- Events recorded while request runs, in program order, each carrying the
response_channels contents at the moment of the action. -/
inductive TraceEntry where
  | insertSlot (message_id : Nat) (mapAfter : List (Nat × Nat))
  | writeEnvelope (env : Envelope) (mapAtWrite : List (Nat × Nat)) (ok : Bool)
deriving Repr, DecidableEq

/-- Result record for a modelled run of request. -/
structure RequestResult where
  outcome : RequestOutcome
  state : RpcClientState
  trace : List TraceEntry

/-- RpcClient::request, straight-line model.  Steps in source order:
resolve the connection (missing gives the unknown-connection error);
fetch_add a message id; insert the one-shot sender into response_channels
keyed by that id; write the envelope (into_envelope message_id None) with
writeOk standing for the write result; await the one-shot receive
(slotRes); decode the response (decodeResp stands for
Response::from_envelope).  An abandoned slot hits the expect call and is
recorded as a panic, not as a returned error. -/
def request (st : RpcClientState) (connection_id : Nat) (slot : Nat)
    (reqPayload : Payload) (writeOk : Bool) (slotRes : SlotResult)
    (decodeResp : Envelope → Option Payload) : RequestResult :=
  match lookupKey st.connections connection_id with
  | none => ⟨.unknownConnection, st, []⟩
  | some conn =>
    let a := fetchAdd conn
    let message_id := a.1
    let conn' : RpcConnection :=
      { a.2 with
        response_channels := insertKey a.2.response_channels message_id slot }
    let st' : RpcClientState :=
      { st with connections := insertKey st.connections connection_id conn' }
    let env : Envelope := ⟨message_id, none, reqPayload⟩
    let trace := [TraceEntry.insertSlot message_id conn'.response_channels,
                  TraceEntry.writeEnvelope env conn'.response_channels writeOk]
    let outcome : RequestOutcome :=
      if writeOk then
        match slotRes with
        | .abandoned => .panicked "response channel was unexpectedly dropped"
        | .delivered resp =>
          match decodeResp resp with
          | none => .protocolMismatch
          | some p => .success p
      else .transportFailure
    ⟨outcome, st', trace⟩

/-- Outcome of send and respond. -/
inductive SendOutcome where
  | unknownConnection
  | transportFailure
  | ok
deriving Repr, DecidableEq

/-- RpcClient::send: resolve the connection, fetch_add a message id, write
the envelope with responding_to absent.  Returns the outcome, the new
state, and the envelopes actually written. -/
def send (st : RpcClientState) (connection_id : Nat) (msgPayload : Payload)
    (writeOk : Bool) : SendOutcome × RpcClientState × List Envelope :=
  match lookupKey st.connections connection_id with
  | none => (.unknownConnection, st, [])
  | some conn =>
    let a := fetchAdd conn
    let st' : RpcClientState :=
      { st with connections := insertKey st.connections connection_id a.2 }
    if writeOk then (.ok, st', [⟨a.1, none, msgPayload⟩])
    else (.transportFailure, st', [])

/-- The received Request wrapper as respond sees it: the original request
id and the connection it arrived on (struct Request, fields id and
connection_id). -/
structure RequestView where
  id : Nat
  connection_id : Nat
deriving Repr, DecidableEq

/-- RpcClient::respond: resolve the connection named by the request view,
fetch_add a fresh local message id, write the response envelope with
responding_to set to the request id
(into_envelope message_id (some req.id)). -/
def respond (st : RpcClientState) (req : RequestView) (respPayload : Payload)
    (writeOk : Bool) : SendOutcome × RpcClientState × List Envelope :=
  match lookupKey st.connections req.connection_id with
  | none => (.unknownConnection, st, [])
  | some conn =>
    let a := fetchAdd conn
    let st' : RpcClientState :=
      { st with connections := insertKey st.connections req.connection_id a.2 }
    if writeOk then (.ok, st', [⟨a.1, some req.id, respPayload⟩])
    else (.transportFailure, st', [])

/-- Outcome of the response branch of the read loop: the envelope was
delivered into the one-shot slot removed from response_channels, or no
slot was outstanding for that correlation id (logged and dropped). -/
inductive ResponseOutcome where
  | delivered (slot : Nat) (env : Envelope)
  | droppedUnknown (responding_to : Nat)
deriving Repr, DecidableEq

/-- Response branch of the read loop (incoming.responding_to is set):
remove the entry for the correlation id from response_channels; deliver
the whole incoming envelope into the slot if one was there, else log and
drop, leaving the record unchanged. -/
def handleResponse (c : RpcConnection) (responding_to : Nat) (env : Envelope) :
    ResponseOutcome × RpcConnection :=
  let r := lookupRemove c.response_channels responding_to
  match r.1 with
  | some slot => (.delivered slot env, { c with response_channels := r.2 })
  | none => (.droppedUnknown responding_to, { c with response_channels := r.2 })

/-- A registered handler slot: the type-derived filter over the payload,
and whether the paired queue receiver still exists (alive is false once
the consumer dropped the stream returned by registration; the read loop
ignores the send result either way). -/
structure HandlerSlot where
  filter : Payload → Bool
  alive : Bool

/-- What the handler walk did with a non-response envelope. -/
inductive DispatchOutcome where
  | handledBy (idx : Nat) (queued : Bool)
  | unhandled (payload : Payload)
deriving Repr, DecidableEq

/-- The for loop over message_handlers: the first slot whose filter
accepts the payload takes the envelope (handled is set and the loop
breaks, the queue-send result is discarded); if none accepts, the
envelope is logged as unhandled.  idx counts the position of the slot at
the head of the remaining list. -/
def dispatchAux : List HandlerSlot → Nat → Envelope → DispatchOutcome
  | [], _, env => .unhandled env.payload
  | slot :: rest, idx, env =>
    if slot.filter env.payload then .handledBy idx slot.alive
    else dispatchAux rest (idx + 1) env

/-- Handler dispatch for one inbound non-response envelope, walking the
registered slots from the front. -/
def dispatchEnvelope (handlers : List HandlerSlot) (env : Envelope) :
    DispatchOutcome :=
  dispatchAux handlers 0 env

/-- One resolved select in the read loop: a decoded envelope, a read or
decode error (terminal records whether the underlying condition ends the
stream, e.g. EOF or broken pipe; the loop body never inspects it), or the
close barrier firing. -/
inductive ReadEvent where
  | msg (env : Envelope)
  | readErr (terminal : Bool)
  | closed
deriving Repr, DecidableEq

/-- What one read-loop iteration did. -/
inductive StepOutcome where
  | responseDelivered (slot : Nat) (env : Envelope)
  | responseDropped (responding_to : Nat)
  | handledBy (idx : Nat) (queued : Bool)
  | unhandledMsg (payload : Payload)
  | readErrorLogged
  | loopExit
deriving Repr, DecidableEq

/-- State carried by the read loop: the shared connection record and the
registered handler slots. -/
structure LoopState where
  conn : RpcConnection
  handlers : List HandlerSlot

/-- One iteration of the read loop body, given the resolved select result:
close signal breaks the loop; a read error is logged and the loop goes
round again; an envelope goes to the response branch when responding_to is
set and to handler dispatch otherwise. -/
def readLoopStep (s : LoopState) (ev : ReadEvent) : StepOutcome × LoopState :=
  match ev with
  | .closed => (.loopExit, s)
  | .readErr _t => (.readErrorLogged, s)
  | .msg env =>
    match env.responding_to with
    | some r =>
      let d := handleResponse s.conn r env
      let out := match d.1 with
        | .delivered slot e => StepOutcome.responseDelivered slot e
        | .droppedUnknown r' => StepOutcome.responseDropped r'
      (out, { s with conn := d.2 })
    | none =>
      let out := match dispatchEnvelope s.handlers env with
        | .handledBy idx q => StepOutcome.handledBy idx q
        | .unhandled p => StepOutcome.unhandledMsg p
      (out, s)

/-- The read loop run against the sequence of select results it observes:
it processes events in order and stops at the first close signal; if the
list is exhausted the loop is still running and would select again. -/
def runLoop : LoopState → List ReadEvent → List StepOutcome × LoopState
  | s, [] => ([], s)
  | s, ev :: rest =>
    let step := readLoopStep s ev
    match ev with
    | .closed => ([step.1], step.2)
    | .msg _ =>
      let r := runLoop step.2 rest
      (step.1 :: r.1, r.2)
    | .readErr _ =>
      let r := runLoop step.2 rest
      (step.1 :: r.1, r.2)

/-- Events on a single connection relevant to request correlation: a
caller issues a request (slot names its one-shot channel), or an inbound
envelope arrives on the read loop. -/
inductive ConnEvent where
  | issueRequest (slot : Nat)
  | inbound (env : Envelope)
deriving Repr, DecidableEq

/-- Trace state for the correlation model: the connection record, the
ghost log of issued requests (allocated id, slot) in issue order, and the
response outcomes produced by the read loop in wire order. -/
structure ConnTraceState where
  conn : RpcConnection
  issued : List (Nat × Nat)
  outcomes : List ResponseOutcome
deriving Repr, DecidableEq

/-- One event on the connection.  issueRequest performs the request-side
bookkeeping on the record (fetch_add the id, insert the slot keyed by it);
inbound runs the read-loop response branch when responding_to is set and
is a no-op here otherwise (non-responses go to handler dispatch, modelled
separately). -/
def connStep (s : ConnTraceState) (e : ConnEvent) : ConnTraceState :=
  match e with
  | .issueRequest slot =>
    let a := fetchAdd s.conn
    { s with
      conn := { a.2 with
                response_channels := insertKey a.2.response_channels a.1 slot },
      issued := s.issued ++ [(a.1, slot)] }
  | .inbound env =>
    match env.responding_to with
    | some r =>
      let d := handleResponse s.conn r env
      { s with conn := d.2, outcomes := s.outcomes ++ [d.1] }
    | none => s

/-- Run a sequence of connection events from a given trace state. -/
def runConnEvents (s : ConnTraceState) : List ConnEvent → ConnTraceState
  | [] => s
  | e :: rest => runConnEvents (connStep s e) rest

/-- The trace state of a freshly added connection. -/
def freshTraceState : ConnTraceState :=
  { conn := freshConnection, issued := [], outcomes := [] }

/-- The outbound operations that allocate a message id; request, send and
respond each perform exactly one fetch_add on the connection counter. -/
inductive OutboundOp where
  | requestOp
  | sendOp
  | respondOp
deriving Repr, DecidableEq

/-- The message ids allocated by a sequence of outbound operations on one
connection record, each by fetch_add on its counter. -/
def allocIds : RpcConnection → List OutboundOp → List Nat
  | _, [] => []
  | c, _ :: rest =>
    let a := fetchAdd c
    a.1 :: allocIds a.2 rest

/-- A one-connection client state used to instantiate theorems. -/
def sampleState : RpcClientState :=
  ⟨[(0, freshConnection)]⟩

/-! Helper lemmas about the association-list operations. -/

theorem lookupKey_insertKey_self {α : Type} (m : List (Nat × α)) (k : Nat) (v : α) :
    lookupKey (insertKey m k v) k = some v := by
  simp [insertKey, lookupKey]

theorem lookupKey_removeKey_self {α : Type} (m : List (Nat × α)) (k : Nat) :
    lookupKey (removeKey m k) k = none := by
  induction m with
  | nil => rfl
  | cons e rest ih =>
    by_cases h : e.1 = k
    · simpa [removeKey, List.filter, h] using ih
    · simpa [removeKey, lookupKey, h] using ih

theorem lookupKey_eq_none_iff {α : Type} (m : List (Nat × α)) (k : Nat) :
    lookupKey m k = none ↔ ∀ p ∈ m, p.1 ≠ k := by
  induction m with
  | nil => simp [lookupKey]
  | cons e rest ih =>
    simp only [lookupKey]
    by_cases he : e.1 = k
    · simp only [he, if_pos rfl]
      constructor
      · intro h; cases h
      · intro h
        exact absurd he (h e (List.mem_cons_self e rest))
    · simp only [if_neg he]
      rw [ih]
      constructor
      · intro h p hp
        rcases List.mem_cons.mp hp with rfl | hp'
        · exact he
        · exact h p hp'
      · intro h p hp
        exact h p (List.mem_cons_of_mem _ hp)

theorem removeKey_of_lookupKey_none {α : Type} (m : List (Nat × α)) (k : Nat)
    (h : lookupKey m k = none) : removeKey m k = m := by
  apply List.filter_eq_self.mpr
  intro a ha
  exact decide_eq_true ((lookupKey_eq_none_iff m k).mp h a ha)

theorem removeKey_removeKey {α : Type} (m : List (Nat × α)) (k : Nat) :
    removeKey (removeKey m k) k = removeKey m k :=
  removeKey_of_lookupKey_none _ _ (lookupKey_removeKey_self m k)

theorem lookupRemove_fst_eq_lookupKey {α : Type} (m : List (Nat × α)) (k : Nat) :
    (lookupRemove m k).1 = lookupKey m k := by
  induction m with
  | nil => rfl
  | cons e rest ih =>
    by_cases h : e.1 = k
    · simp [lookupRemove, lookupKey, h]
    · simp [lookupRemove, lookupKey, h, ih]

theorem lookupRemove_snd_of_none {α : Type} (m : List (Nat × α)) (k : Nat)
    (h : lookupKey m k = none) : (lookupRemove m k).2 = m := by
  induction m with
  | nil => rfl
  | cons e rest ih =>
    by_cases he : e.1 = k
    · simp [lookupKey, he] at h
    · simp only [lookupKey, he, if_neg he] at h
      simp [lookupRemove, he, ih h]

theorem lookupKey_lookupRemove_other {α : Type} (m : List (Nat × α)) (k k' : Nat)
    (h : k' ≠ k) : lookupKey (lookupRemove m k).2 k' = lookupKey m k' := by
  induction m with
  | nil => rfl
  | cons e rest ih =>
    by_cases he : e.1 = k
    · subst he
      have : e.1 ≠ k' := fun hk => h hk.symm
      simp [lookupRemove, lookupKey, this]
    · by_cases he' : e.1 = k'
      · simp [lookupRemove, lookupKey, he, he', h]
      · simp [lookupRemove, lookupKey, he, he', ih]

theorem lookupRemove_snd_subset {α : Type} (m : List (Nat × α)) (k : Nat) :
    ∀ p ∈ (lookupRemove m k).2, p ∈ m := by
  induction m with
  | nil => intro p hp; simp [lookupRemove] at hp
  | cons e rest ih =>
    intro p hp
    by_cases he : e.1 = k
    · simp only [lookupRemove, he, if_pos rfl] at hp
      exact List.mem_cons_of_mem _ hp
    · simp only [lookupRemove, if_neg he] at hp
      rcases List.mem_cons.mp hp with h | h
      · exact h ▸ List.mem_cons_self _ _
      · exact List.mem_cons_of_mem _ (ih p h)

theorem lookupRemove_fst_mem {α : Type} (m : List (Nat × α)) (k : Nat) (v : α)
    (h : (lookupRemove m k).1 = some v) : (k, v) ∈ m := by
  induction m with
  | nil => simp [lookupRemove] at h
  | cons e rest ih =>
    obtain ⟨a, b⟩ := e
    by_cases he : a = k
    · subst he
      simp only [lookupRemove, if_pos rfl] at h
      have hv : b = v := Option.some.inj h
      subst hv
      exact List.mem_cons_self _ _
    · simp only [lookupRemove, if_neg he] at h
      exact List.mem_cons_of_mem _ (ih h)

theorem mem_insertKey {α : Type} (m : List (Nat × α)) (k : Nat) (v : α)
    (p : Nat × α) (h : p ∈ insertKey m k v) : p = (k, v) ∨ p ∈ m := by
  rcases List.mem_cons.mp h with h' | h'
  · exact Or.inl h'
  · exact Or.inr (List.mem_filter.mp h').1

/-! Claim theorems. -/

/-- C1 (amended): when the one-shot response slot of request is abandoned
before a reply is delivered, the future does not resolve to a
ChannelClosed error; the receive hits the expect call and the task panics
with the message written there. -/
theorem request_abandoned_panics (st : RpcClientState) (connection_id slot : Nat)
    (reqPayload : Payload) (decodeResp : Envelope → Option Payload)
    (conn : RpcConnection)
    (h : lookupKey st.connections connection_id = some conn) :
    (request st connection_id slot reqPayload true SlotResult.abandoned
        decodeResp).outcome
      = RequestOutcome.panicked "response channel was unexpectedly dropped" := by
  simp [request, h]

/-- C1 witness: the amended theorem at a concrete one-connection state. -/
theorem request_abandoned_panics_witness :
    (request sampleState 0 5 9 true SlotResult.abandoned (fun _ => none)).outcome
      = RequestOutcome.panicked "response channel was unexpectedly dropped" :=
  request_abandoned_panics sampleState 0 5 9 (fun _ => none) freshConnection rfl

/-- C1 counterexample: at a concrete run with the slot abandoned, the
outcome is the panic, not the ChannelClosed error the claim names. -/
theorem request_abandoned_not_channelClosed :
    (request sampleState 0 5 9 true SlotResult.abandoned (fun _ => none)).outcome
      ≠ RequestOutcome.channelClosed
    ∧ (request sampleState 0 5 9 true SlotResult.abandoned (fun _ => none)).outcome
      = RequestOutcome.panicked "response channel was unexpectedly dropped" := by
  exact ⟨by decide, by decide⟩

/-- C5: in every run of request on a known connection, the slot is
inserted into the outstanding-requests map keyed by the fresh message id
strictly before the envelope write, and the map at the moment of the write
already contains the entry for that id. -/
theorem request_slot_inserted_before_write (st : RpcClientState)
    (connection_id slot : Nat) (reqPayload : Payload) (writeOk : Bool)
    (slotRes : SlotResult) (decodeResp : Envelope → Option Payload)
    (conn : RpcConnection)
    (h : lookupKey st.connections connection_id = some conn) :
    ∃ mid m,
      (request st connection_id slot reqPayload writeOk slotRes decodeResp).trace
        = [TraceEntry.insertSlot mid m,
           TraceEntry.writeEnvelope ⟨mid, none, reqPayload⟩ m writeOk]
      ∧ lookupKey m mid = some slot := by
  refine ⟨(fetchAdd conn).1,
      insertKey (fetchAdd conn).2.response_channels (fetchAdd conn).1 slot,
      ?_, ?_⟩
  · simp [request, h]
  · exact lookupKey_insertKey_self _ _ _

/-- C5 witness: the theorem at a concrete one-connection state. -/
theorem request_slot_inserted_before_write_witness :
    ∃ mid m,
      (request sampleState 0 5 9 true SlotResult.abandoned (fun _ => none)).trace
        = [TraceEntry.insertSlot mid m,
           TraceEntry.writeEnvelope ⟨mid, none, 9⟩ m true]
      ∧ lookupKey m mid = some 5 :=
  request_slot_inserted_before_write sampleState 0 5 9 true SlotResult.abandoned
    (fun _ => none) freshConnection rfl

/-- C9: if the envelope write fails, request returns the transport error
and does not remove the inserted one-shot entry: the final state still
maps the allocated message id to the slot on that connection. -/
theorem request_write_failure_keeps_slot (st : RpcClientState)
    (connection_id slot : Nat) (reqPayload : Payload) (slotRes : SlotResult)
    (decodeResp : Envelope → Option Payload) (conn : RpcConnection)
    (h : lookupKey st.connections connection_id = some conn) :
    (request st connection_id slot reqPayload false slotRes decodeResp).outcome
      = RequestOutcome.transportFailure
    ∧ ∃ conn',
        lookupKey (request st connection_id slot reqPayload false slotRes
            decodeResp).state.connections connection_id = some conn'
        ∧ lookupKey conn'.response_channels (fetchAdd conn).1 = some slot := by
  constructor
  · simp [request, h]
  · refine ⟨{ (fetchAdd conn).2 with
        response_channels :=
          insertKey (fetchAdd conn).2.response_channels (fetchAdd conn).1 slot },
      ?_, ?_⟩
    · simp [request, h, lookupKey_insertKey_self]
    · exact lookupKey_insertKey_self _ _ _

/-- C9 witness: the theorem at a concrete one-connection state. -/
theorem request_write_failure_keeps_slot_witness :
    (request sampleState 0 5 9 false SlotResult.abandoned (fun _ => none)).outcome
      = RequestOutcome.transportFailure
    ∧ ∃ conn',
        lookupKey (request sampleState 0 5 9 false SlotResult.abandoned
            (fun _ => none)).state.connections 0 = some conn'
        ∧ lookupKey conn'.response_channels (fetchAdd freshConnection).1 = some 5 :=
  request_write_failure_keeps_slot sampleState 0 5 9 SlotResult.abandoned
    (fun _ => none) freshConnection rfl

/-- C6: disconnect is idempotent; disconnecting an absent id leaves the
state exactly as it was; and request and send on a disconnected id fail
with the unknown-connection error without touching the state. -/
theorem disconnect_idempotent :
    (∀ st cid, disconnect (disconnect st cid) cid = disconnect st cid)
  ∧ (∀ st cid, lookupKey st.connections cid = none → disconnect st cid = st)
  ∧ (∀ st cid slot reqPayload writeOk slotRes decodeResp,
      (request (disconnect st cid) cid slot reqPayload writeOk slotRes
          decodeResp).outcome = RequestOutcome.unknownConnection
      ∧ (request (disconnect st cid) cid slot reqPayload writeOk slotRes
          decodeResp).state = disconnect st cid)
  ∧ (∀ st cid msgPayload writeOk,
      (send (disconnect st cid) cid msgPayload writeOk).1
        = SendOutcome.unknownConnection) := by
  refine ⟨?_, ?_, ?_, ?_⟩
  · intro st cid
    simp [disconnect, removeKey_removeKey]
  · intro st cid h
    cases st
    simp [disconnect, removeKey_of_lookupKey_none _ _ h]
  · intro st cid slot reqPayload writeOk slotRes decodeResp
    constructor <;>
      simp [request, disconnect, lookupKey_removeKey_self]
  · intro st cid msgPayload writeOk
    simp [send, disconnect, lookupKey_removeKey_self]

/-- C7: respond on a known connection writes exactly one envelope; its
responding_to is the original request id and its id is the freshly
allocated counter value of that connection, whose counter advances by one
modulo 2 ^ 32. -/
theorem respond_fresh_id_correlates (st : RpcClientState) (req : RequestView)
    (respPayload : Payload) (conn : RpcConnection)
    (h : lookupKey st.connections req.connection_id = some conn) :
    (respond st req respPayload true).2.2
        = [⟨conn.next_message_id, some req.id, respPayload⟩]
    ∧ (respond st req respPayload true).1 = SendOutcome.ok
    ∧ ∃ conn',
        lookupKey (respond st req respPayload true).2.1.connections
            req.connection_id = some conn'
        ∧ conn'.next_message_id = (conn.next_message_id + 1) % u32Size := by
  refine ⟨by simp [respond, h, fetchAdd], by simp [respond, h], ?_⟩
  refine ⟨(fetchAdd conn).2, ?_, rfl⟩
  simp [respond, h, lookupKey_insertKey_self]

/-- C7 witness: the theorem at a concrete state, for the request view with
original id 7 on connection 0. -/
theorem respond_fresh_id_correlates_witness :
    (respond sampleState ⟨7, 0⟩ 3 true).2.2 = [⟨0, some 7, 3⟩]
    ∧ (respond sampleState ⟨7, 0⟩ 3 true).1 = SendOutcome.ok
    ∧ ∃ conn',
        lookupKey (respond sampleState ⟨7, 0⟩ 3 true).2.1.connections 0
          = some conn'
        ∧ conn'.next_message_id = (0 + 1) % u32Size :=
  respond_fresh_id_correlates sampleState ⟨7, 0⟩ 3 freshConnection rfl

theorem readLoopStep_msg_ne_exit (s : LoopState) (env : Envelope) :
    (readLoopStep s (ReadEvent.msg env)).1 ≠ StepOutcome.loopExit := by
  rcases henv : env.responding_to with _ | r
  · rcases h2 : dispatchEnvelope s.handlers env with ⟨idx, q⟩ | p <;>
      simp [readLoopStep, henv, h2]
  · rcases h2 : (handleResponse s.conn r env).1 with ⟨slot, e⟩ | r' <;>
      simp [readLoopStep, henv, h2]

/-- C2 (amended): the read loop terminates iff it observes the close
signal raised by removing the connection; every read error, a terminal
stream condition included, is logged and the loop selects again. -/
theorem runLoop_exits_iff_closed (s : LoopState) (events : List ReadEvent) :
    StepOutcome.loopExit ∈ (runLoop s events).1 ↔ ReadEvent.closed ∈ events := by
  induction events generalizing s with
  | nil => simp [runLoop]
  | cons ev rest ih =>
    cases ev with
    | closed => simp [runLoop, readLoopStep]
    | readErr t => simp [runLoop, readLoopStep, ih]
    | msg env =>
      have hne := readLoopStep_msg_ne_exit s env
      simp [runLoop, ih, hne, Ne.symm hne]

/-- C2 counterexample: a terminal stream condition alone does not make the
loop exit; the error is logged and the loop keeps going, and only a later
close signal ends it. -/
theorem runLoop_terminal_error_no_exit :
    StepOutcome.loopExit ∉
      (runLoop ⟨freshConnection, []⟩ [ReadEvent.readErr true]).1
    ∧ (runLoop ⟨freshConnection, []⟩
        [ReadEvent.readErr true, ReadEvent.readErr true]).1
      = [StepOutcome.readErrorLogged, StepOutcome.readErrorLogged]
    ∧ (runLoop ⟨freshConnection, []⟩
        [ReadEvent.readErr true, ReadEvent.closed]).1
      = [StepOutcome.readErrorLogged, StepOutcome.loopExit] :=
  ⟨by decide, by decide, by decide⟩

theorem dispatchAux_of_all_reject (hs : List HandlerSlot) (env : Envelope) :
    ∀ idx, (∀ s ∈ hs, s.filter env.payload = false) →
      dispatchAux hs idx env = DispatchOutcome.unhandled env.payload := by
  induction hs with
  | nil => intro idx _; rfl
  | cons slot rest ih =>
    intro idx h
    have hs0 := h slot (List.mem_cons_self _ _)
    simp only [dispatchAux, hs0]
    simp only [Bool.false_eq_true, if_false]
    exact ih (idx + 1) (fun s hs' => h s (List.mem_cons_of_mem _ hs'))

theorem dispatchAux_first (hs₁ : List HandlerSlot) (slot : HandlerSlot)
    (hs₂ : List HandlerSlot) (env : Envelope) :
    ∀ idx, (∀ s ∈ hs₁, s.filter env.payload = false) →
      slot.filter env.payload = true →
      dispatchAux (hs₁ ++ slot :: hs₂) idx env
        = DispatchOutcome.handledBy (idx + hs₁.length) slot.alive := by
  induction hs₁ with
  | nil =>
    intro idx _ hacc
    simp [dispatchAux, hacc]
  | cons s0 rest ih =>
    intro idx h hacc
    have hs0 := h s0 (List.mem_cons_self _ _)
    simp only [List.cons_append, dispatchAux, hs0, Bool.false_eq_true, if_false,
      List.append_eq]
    rw [ih (idx + 1) (fun s hs' => h s (List.mem_cons_of_mem _ hs')) hacc]
    congr 1
    simp only [List.length_cons]
    omega

/-- C4: for an inbound envelope with responding_to absent, the handler
walk delivers the envelope to exactly the first slot whose filter accepts
it, at the position given by the number of earlier (all rejecting) slots,
and stops there; when no registered filter accepts, the envelope is
reported unhandled with its payload. -/
theorem dispatch_first_accepting_slot :
    (∀ (hs₁ : List HandlerSlot) (slot : HandlerSlot) (hs₂ : List HandlerSlot)
        (env : Envelope),
      (∀ s ∈ hs₁, s.filter env.payload = false) →
      slot.filter env.payload = true →
      dispatchEnvelope (hs₁ ++ slot :: hs₂) env
        = DispatchOutcome.handledBy hs₁.length slot.alive)
  ∧ (∀ (handlers : List HandlerSlot) (env : Envelope),
      (∀ s ∈ handlers, s.filter env.payload = false) →
      dispatchEnvelope handlers env = DispatchOutcome.unhandled env.payload) := by
  constructor
  · intro hs₁ slot hs₂ env h hacc
    have := dispatchAux_first hs₁ slot hs₂ env 0 h hacc
    simpa using this
  · intro handlers env h
    exact dispatchAux_of_all_reject handlers env 0 h

/-- C10: when the first accepting slot has a dead queue receiver, the
envelope is still consumed and marked handled (the failed send is
discarded): the outcome is independent of the slots after it and is never
the unhandled report. -/
theorem dispatch_dead_queue_consumes (hs₁ : List HandlerSlot)
    (slot : HandlerSlot) (hs₂ : List HandlerSlot) (env : Envelope)
    (hrej : ∀ s ∈ hs₁, s.filter env.payload = false)
    (hacc : slot.filter env.payload = true)
    (hdead : slot.alive = false) :
    dispatchEnvelope (hs₁ ++ slot :: hs₂) env
      = DispatchOutcome.handledBy hs₁.length false
    ∧ (∀ hs₂', dispatchEnvelope (hs₁ ++ slot :: hs₂') env
        = dispatchEnvelope (hs₁ ++ slot :: hs₂) env)
    ∧ ∀ p, dispatchEnvelope (hs₁ ++ slot :: hs₂) env
        ≠ DispatchOutcome.unhandled p := by
  have hmain : ∀ hs' : List HandlerSlot,
      dispatchEnvelope (hs₁ ++ slot :: hs') env
        = DispatchOutcome.handledBy hs₁.length false := by
    intro hs'
    have h := dispatchAux_first hs₁ slot hs' env 0 hrej hacc
    rw [hdead] at h
    simpa using h
  refine ⟨hmain hs₂, fun hs₂' => (hmain hs₂').trans (hmain hs₂).symm, ?_⟩
  intro p h
  rw [hmain hs₂] at h
  cases h

/-- C10 witness: two slots both accepting the payload, the first with a
dead queue; the envelope is consumed by the first. -/
theorem dispatch_dead_queue_consumes_witness :
    dispatchEnvelope
        ([] ++ HandlerSlot.mk (fun _ => true) false ::
          [HandlerSlot.mk (fun _ => true) true])
        (Envelope.mk 0 none 1)
      = DispatchOutcome.handledBy 0 false :=
  (dispatch_dead_queue_consumes [] ⟨fun _ => true, false⟩
    [⟨fun _ => true, true⟩] ⟨0, none, 1⟩
    (fun s hs => absurd hs (List.not_mem_nil s)) rfl rfl).1

theorem u32Size_eq : u32Size = 4294967296 := rfl

theorem allocIds_get? (ops : List OutboundOp) :
    ∀ (c : RpcConnection) (k : Nat), c.next_message_id < u32Size →
      k < ops.length →
      (allocIds c ops).get? k = some ((c.next_message_id + k) % u32Size) := by
  induction ops with
  | nil => intro c k _ hk; exact absurd hk (Nat.not_lt_zero k)
  | cons op rest ih =>
    intro c k hc hk
    cases k with
    | zero =>
      simp [allocIds, fetchAdd, Nat.mod_eq_of_lt hc]
    | succ k' =>
      have hk' : k' < rest.length := Nat.lt_of_succ_lt_succ hk
      have hpos : 0 < u32Size := by rw [u32Size_eq]; omega
      have hc' : (c.next_message_id + 1) % u32Size < u32Size :=
        Nat.mod_lt _ hpos
      simp only [allocIds, List.get?]
      rw [ih _ k' hc' hk']
      simp only [fetchAdd]
      congr 1
      rw [u32Size_eq]
      omega

/-- C8 (amended): request, send and respond all mint their envelope id by
a fetch-and-add of the same per-connection counter, and the ids allocated
to the operations of a fresh connection record are pairwise distinct as
long as the operation in question is among the first 2 ^ 32; the u32
counter wraps after that. -/
theorem allocIds_pairwise_distinct (ops : List OutboundOp) (i j : Nat)
    (hij : i < j) (hj : j < ops.length) (hwrap : j < u32Size) :
    (allocIds freshConnection ops).get? i
      ≠ (allocIds freshConnection ops).get? j := by
  have hpos : freshConnection.next_message_id < u32Size := by
    rw [u32Size_eq]; simp [freshConnection]
  rw [allocIds_get? ops freshConnection i hpos (Nat.lt_trans hij hj),
      allocIds_get? ops freshConnection j hpos hj]
  have hi : i < u32Size := Nat.lt_trans hij hwrap
  simp only [freshConnection, Nat.zero_add, Nat.mod_eq_of_lt hi,
    Nat.mod_eq_of_lt hwrap]
  intro h
  exact absurd (Option.some.inj h) (Nat.ne_of_lt hij)

/-- C8 witness: the first two operations on a fresh connection allocate
different ids. -/
theorem allocIds_pairwise_distinct_witness :
    (allocIds freshConnection [OutboundOp.requestOp, OutboundOp.sendOp]).get? 0
      ≠ (allocIds freshConnection
          [OutboundOp.requestOp, OutboundOp.sendOp]).get? 1 :=
  allocIds_pairwise_distinct [OutboundOp.requestOp, OutboundOp.sendOp] 0 1
    (by omega) (by simp) (by rw [u32Size_eq]; omega)

/-- C8 counterexample: with 2 ^ 32 + 1 outbound operations the counter
wraps, and operation number 2 ^ 32 allocates the same id as operation 0,
so the ids are not pairwise distinct across all operations within the
lifetime of the connection record. -/
theorem allocIds_wraparound :
    (allocIds freshConnection
        (List.replicate (u32Size + 1) OutboundOp.sendOp)).get? 0
      = (allocIds freshConnection
          (List.replicate (u32Size + 1) OutboundOp.sendOp)).get? u32Size
    ∧ (0 : Nat) ≠ u32Size := by
  have hpos : freshConnection.next_message_id < u32Size := by
    rw [u32Size_eq]; simp [freshConnection]
  constructor
  · rw [allocIds_get? _ _ 0 hpos (by simp [List.length_replicate]),
        allocIds_get? _ _ u32Size hpos
          (by simp [List.length_replicate])]
    simp [freshConnection]
  · rw [u32Size_eq]; omega

theorem lookupKey_lookupRemove_self {α : Type} (m : List (Nat × α)) (k : Nat)
    (hnd : (m.map Prod.fst).Nodup) :
    lookupKey (lookupRemove m k).2 k = none := by
  induction m with
  | nil => rfl
  | cons e rest ih =>
    simp only [List.map_cons, List.nodup_cons] at hnd
    by_cases he : e.1 = k
    · simp only [lookupRemove, he, if_pos rfl]
      apply (lookupKey_eq_none_iff rest k).mpr
      intro p hp hk
      exact hnd.1 (he ▸ hk ▸ List.mem_map_of_mem Prod.fst hp)
    · simp only [lookupRemove, if_neg he]
      simp [lookupKey, he, ih hnd.2]

theorem connStep_preserves (s : ConnTraceState) (e : ConnEvent)
    (h1 : ∀ p ∈ s.conn.response_channels, p ∈ s.issued)
    (h2 : ∀ slot env, ResponseOutcome.delivered slot env ∈ s.outcomes →
        ∃ r, (r, slot) ∈ s.issued ∧ env.responding_to = some r) :
    (∀ p ∈ (connStep s e).conn.response_channels, p ∈ (connStep s e).issued)
    ∧ (∀ slot env,
        ResponseOutcome.delivered slot env ∈ (connStep s e).outcomes →
        ∃ r, (r, slot) ∈ (connStep s e).issued
          ∧ env.responding_to = some r) := by
  cases e with
  | issueRequest slot =>
    constructor
    · intro p hp
      simp only [connStep] at hp ⊢
      rcases mem_insertKey _ _ _ p hp with rfl | hp'
      · exact List.mem_append_right _ (List.mem_singleton.mpr rfl)
      · exact List.mem_append_left _ (h1 p hp')
    · intro slot' env hmem
      simp only [connStep] at hmem ⊢
      rcases h2 slot' env hmem with ⟨r, hr, he⟩
      exact ⟨r, List.mem_append_left _ hr, he⟩
  | inbound env =>
    rcases henv : env.responding_to with _ | r
    · simp only [connStep, henv]
      exact ⟨h1, h2⟩
    · rcases hlr : (lookupRemove s.conn.response_channels r).1 with _ | slot
      · constructor
        · intro p hp
          simp only [connStep, henv, handleResponse, hlr] at hp ⊢
          exact h1 p (lookupRemove_snd_subset _ _ p hp)
        · intro slot' env' hmem
          simp only [connStep, henv, handleResponse, hlr] at hmem ⊢
          rcases List.mem_append.mp hmem with hm | hm
          · exact h2 slot' env' hm
          · cases List.mem_singleton.mp hm
      · constructor
        · intro p hp
          simp only [connStep, henv, handleResponse, hlr] at hp ⊢
          exact h1 p (lookupRemove_snd_subset _ _ p hp)
        · intro slot' env' hmem
          simp only [connStep, henv, handleResponse, hlr] at hmem ⊢
          rcases List.mem_append.mp hmem with hm | hm
          · exact h2 slot' env' hm
          · have heq := List.mem_singleton.mp hm
            cases heq
            exact ⟨r, h1 _ (lookupRemove_fst_mem _ _ _ hlr), henv⟩

theorem runConnEvents_preserves (events : List ConnEvent) :
    ∀ s : ConnTraceState,
      (∀ p ∈ s.conn.response_channels, p ∈ s.issued) →
      (∀ slot env, ResponseOutcome.delivered slot env ∈ s.outcomes →
        ∃ r, (r, slot) ∈ s.issued ∧ env.responding_to = some r) →
      ∀ slot env,
        ResponseOutcome.delivered slot env
          ∈ (runConnEvents s events).outcomes →
        ∃ r, (r, slot) ∈ (runConnEvents s events).issued
          ∧ env.responding_to = some r := by
  induction events with
  | nil => intro s _ h2; exact h2
  | cons e rest ih =>
    intro s h1 h2
    have hp := connStep_preserves s e h1 h2
    exact ih (connStep s e) hp.1 hp.2

/-- C3: over any sequence of issued requests and inbound envelopes on one
connection, every envelope delivered into a request slot carries in
responding_to exactly the id that was allocated when that slot was
registered; the response branch removes the matched entry without
touching entries under other ids; and a response whose correlation id
matches no outstanding entry is dropped with a warning, leaving the
record unchanged. -/
theorem response_correlation :
    (∀ (events : List ConnEvent) (slot : Nat) (env : Envelope),
      ResponseOutcome.delivered slot env
        ∈ (runConnEvents freshTraceState events).outcomes →
      ∃ r, (r, slot) ∈ (runConnEvents freshTraceState events).issued
        ∧ env.responding_to = some r)
  ∧ (∀ (c : RpcConnection) (r : Nat) (env : Envelope) (slot : Nat),
      lookupKey c.response_channels r = some slot →
      (handleResponse c r env).1 = ResponseOutcome.delivered slot env
      ∧ (∀ k, k ≠ r →
          lookupKey (handleResponse c r env).2.response_channels k
            = lookupKey c.response_channels k)
      ∧ ((c.response_channels.map Prod.fst).Nodup →
          lookupKey (handleResponse c r env).2.response_channels r = none))
  ∧ (∀ (c : RpcConnection) (r : Nat) (env : Envelope),
      lookupKey c.response_channels r = none →
      handleResponse c r env = (ResponseOutcome.droppedUnknown r, c)) := by
  refine ⟨?_, ?_, ?_⟩
  · intro events slot env hmem
    exact runConnEvents_preserves events freshTraceState
      (by intro p hp; cases hp) (by intro slot' env' h; cases h)
      slot env hmem
  · intro c r env slot hlk
    have hfst : (lookupRemove c.response_channels r).1 = some slot := by
      rw [lookupRemove_fst_eq_lookupKey]; exact hlk
    refine ⟨?_, ?_, ?_⟩
    · simp [handleResponse, hfst]
    · intro k hk
      simp only [handleResponse, hfst]
      exact lookupKey_lookupRemove_other _ _ _ hk
    · intro hnd
      simp only [handleResponse, hfst]
      exact lookupKey_lookupRemove_self _ _ hnd
  · intro c r env hlk
    have hfst : (lookupRemove c.response_channels r).1 = none := by
      rw [lookupRemove_fst_eq_lookupKey]; exact hlk
    have hsnd := lookupRemove_snd_of_none _ _ hlk
    simp [handleResponse, hfst, hsnd]
